import Mathlib

/-!
Verification of the Smart Image Searching Tool pipeline
(`image_tool.py`, `download_images.py`, `evaluate_best.py`).

The Python scripts are shallowly embedded below.  External collaborators
(the search HTTP endpoint, the image HTTP servers, the vision evaluator)
are modelled as explicit environments; the filesystem under the two
persistent roots (`output/`, `output_candidates/`) is modelled as a map
from structured paths to abstract contents.
-/

namespace SmartImage

/-! ## Filesystem model -/

/-- Abstract content of a file under the persistent roots.
`jpegQ95 img` is the complete quality-95 JPEG re-encode of a decoded
image identified by `img`; `partialData` is a file left behind by an
interrupted `img.save` (the file was opened and truncated, then the
encoder raised); `raw` is arbitrary pre-existing content. -/
inductive Content
  | partialData
  | jpegQ95 (img : Nat)
  | raw (tag : Nat)
deriving DecidableEq, Repr

/-- Structured paths: `output/<id>_<slug>.jpg` and
`output_candidates/<id>_<slug>/candidate_<rank>.jpg`. -/
inductive FPath
  | final (id slug : String)
  | candidate (id slug : String) (rank : Nat)
deriving DecidableEq, Repr

def FS := FPath → Option Content

def FS.update (fs : FS) (p : FPath) (c : Option Content) : FS :=
  fun q => if q = p then c else fs q

/-- `keyword.replace(' ', '_')` (image_tool.py:362): for a one-character
pattern this is exactly a character map. -/
def slug (kw : String) : String :=
  ⟨kw.data.map (fun c => if c = ' ' then '_' else c)⟩

structure KeywordRec where
  id : String
  keyword : String
deriving DecidableEq, Repr

/-! ## `search_images` (image_tool.py:25-131, download_images.py:19-103)

One provider page request is answered by an oracle indexed by the page
number and the `num` parameter sent in the request.  `error` covers a
transport failure of `requests.get` or a non-2xx status raised by
`raise_for_status` (both are `requests.exceptions.RequestException`,
caught at image_tool.py:126). -/

inductive PageResult
  | error
  | ok (items : List String)

structure Request where
  start : Nat
  num : Nat
deriving DecidableEq, Repr

/-- The pagination loop (image_tool.py:74-129).  `fuel` is the number of
loop iterations still allowed by `range(requests_needed)`, `idx` the
current `request_index`, `acc` the `all_images` accumulator, `log` the
requests issued so far. -/
def searchLoop (oracle : Nat → Nat → PageResult) (maxTotal : Nat) :
    Nat → Nat → List String → List Request → List String × List Request
  | 0, _idx, acc, log => (acc, log)
  | fuel + 1, idx, acc, log =>
    let needed := min 10 (maxTotal - acc.length)
    if needed = 0 then (acc, log)
    else
      let log' := log ++ [⟨10 * idx + 1, needed⟩]
      match oracle idx needed with
      | .error => (acc, log')
      | .ok items =>
        if items.isEmpty then (acc, log')
        else searchLoop oracle maxTotal fuel (idx + 1) (acc ++ items) log'

/-- `requests_needed = (max_total + 9) // 10` (image_tool.py:72). -/
def requestsNeeded (num : Nat) : Nat := (min num 100 + 9) / 10

/-- `search_images` (image_tool.py:25-131): returns the result list and
the log of page requests issued. -/
def search_images (num : Nat) (oracle : Nat → Nat → PageResult) :
    List String × List Request :=
  searchLoop oracle (min num 100) (requestsNeeded num) 0 [] []

/-! ## `download_image` (image_tool.py:133-185, download_images.py:105-156)

One retry attempt sees either a raising `requests.get` (`netError`) or a
response with a status code, a payload size, a decode outcome for
`Image.open`/`convert` (`none` when they raise), and whether the
`img.save(filename, 'JPEG', quality=95)` call completes.  `img.save`
opens the destination with truncation and writes incrementally, so a
failing save leaves `partialData` and even a succeeding save passes
through a `partialData` state before completion. -/

inductive AttemptEnv
  | netError
  | resp (status : Nat) (size : Nat) (decoded : Option Nat) (saveOk : Bool)

/-- The retry loop of `download_image`.  Returns the boolean result, the
final content at the destination path, and the trace of every state the
destination path passes through during the call. -/
def downloadLoop (env : Nat → AttemptEnv) :
    Nat → Nat → Option Content → List (Option Content) →
    Bool × Option Content × List (Option Content)
  | 0, _a, cur, tr => (false, cur, tr)
  | fuel + 1, a, cur, tr =>
    match env a with
    | .netError => downloadLoop env fuel (a + 1) cur tr
    | .resp status size dec saveOk =>
      if status = 200 then
        if size < 1024 then downloadLoop env fuel (a + 1) cur tr
        else
          match dec with
          | none => downloadLoop env fuel (a + 1) cur tr
          | some img =>
            if saveOk then
              (true, some (Content.jpegQ95 img),
                tr ++ [some Content.partialData, some (Content.jpegQ95 img)])
            else
              downloadLoop env fuel (a + 1) (some Content.partialData)
                (tr ++ [some Content.partialData])
      else downloadLoop env fuel (a + 1) cur tr

/-- `download_image(url, filename, max_retries)`: `env` describes the
attempt outcomes for this url, `dest0` the content currently at the
destination path. -/
def download_image (env : Nat → AttemptEnv) (maxRetries : Nat)
    (dest0 : Option Content) : Bool × Option Content × List (Option Content) :=
  downloadLoop env maxRetries 0 dest0 [dest0]

/-! ## Evaluator response parsing

The evaluator response's leading whitespace-delimited token is parsed
with Python's `int()`; the parse outcome is modelled as `Option Int`
(`none` when `int()` raises, or when the response is all whitespace and
`text.split()[0]` raises `IndexError` — both land in the bare `except`). -/

/-- `image_tool.py:233-242`: 0-based best index with fallback to 0. -/
def chooseIndex0 (parsed : Option Int) (n : Nat) : Nat :=
  match parsed with
  | none => 0
  | some k => if 0 ≤ k ∧ k < (n : Int) then k.toNat else 0

/-- `evaluate_best.py:74-85`: 1-based best index with fallback to 1. -/
def chooseIndex1 (parsed : Option Int) (n : Nat) : Nat :=
  match parsed with
  | none => 1
  | some k => if 1 ≤ k ∧ k ≤ (n : Int) then k.toNat else 1

/-! ## The combined driver `image_tool.py main` (lines 274-456) -/

/-- External behavior for one run: the search page oracle per keyword,
the download attempt schedule per url, the size and `Image.verify`
outcome of each re-encoded image (for the post-download check at
image_tool.py:406-415), and the evaluator collaborator. -/
structure Env where
  pages : String → Nat → Nat → PageResult
  numResults : Nat
  attempts : String → Nat → AttemptEnv
  jpegSize : Nat → Nat
  verifyOk : Nat → Bool
  useGeminiEval : Bool
  tempAttempts : String → Nat → AttemptEnv
  uploadRaises : Nat → Bool
  genParsed : Option Int

inductive Eff
  | search (kw : String)
  | download (url : String)
  | write (p : FPath)
  | remove (p : FPath)
  | copy (src dst : FPath)
  | mkdir (id slug : String)
deriving DecidableEq, Repr

/-- `evaluate_best_image` of image_tool.py (lines 187-272): each image is
first downloaded to a temp file with `max_retries=2` (line 194); every
temp file that exists is then passed to `genai.upload_file` (line 206),
a call that is NOT inside any `try` block — if it raises, the exception
propagates to the caller (`Except.error`).  Otherwise the response's
leading token picks the 0-based index (lines 233-242). -/
def evaluateBestTool (env : Env) (urls : List String) : Except Unit Nat :=
  let tempOk : List Bool :=
    urls.map (fun u => (download_image (env.tempAttempts u) 2 none).1)
  if (List.range urls.length).any
      (fun i => tempOk.getD i false && env.uploadRaises i)
  then Except.error ()
  else Except.ok (chooseIndex0 env.genParsed urls.length)

/-- Whether the download plus the post-download validation of
image_tool.py:404-423 succeeds for a url, and with which image.
(`download_image`'s boolean result and its success content do not depend
on the prior content of the destination, so this is a pure function of
the environment.) -/
def candOutcome (env : Env) (url : String) : Option Nat :=
  let d := download_image (env.attempts url) 3 none
  if d.1 then
    match d.2.1 with
    | some (Content.jpegQ95 img) =>
      if env.jpegSize img < 1024 then none
      else if env.verifyOk img then some img else none
    | _ => none
  else none

/-- One iteration of the candidate download loop (image_tool.py:398-425)
for candidate index `i` (0-based): download to
`candidate_<i+1>.jpg`, then re-check size and `Image.verify`, removing
the file on a failed re-check.  Returns the new filesystem, the effects,
and the `(img_index, path)` entry appended to `downloaded_images` when
the candidate is kept. -/
def processCandidate (env : Env) (item : KeywordRec) (fs : FS) (i : Nat)
    (url : String) : FS × List Eff × Option (Nat × FPath) :=
  let p := FPath.candidate item.id (slug item.keyword) (i + 1)
  let d := download_image (env.attempts url) 3 (fs p)
  if d.1 then
    let fs1 := fs.update p d.2.1
    match d.2.1 with
    | some (Content.jpegQ95 img) =>
      if env.jpegSize img < 1024 then
        (fs1.update p none, [.download url, .write p, .remove p], none)
      else if env.verifyOk img then
        (fs1, [.download url, .write p], some (i, p))
      else
        (fs1.update p none, [.download url, .write p, .remove p], none)
    | _ =>
      -- unreachable: a successful download always leaves a complete re-encode
      (fs1, [.download url, .write p], none)
  else
    (fs.update p d.2.1, [.download url], none)

/-- The candidate download loop over `enumerate(images)`
(image_tool.py:398-425). -/
def downloadAll (env : Env) (item : KeywordRec) :
    FS → List (Nat × String) → FS × List Eff × List (Nat × FPath)
  | fs, [] => (fs, [], [])
  | fs, (i, url) :: rest =>
    let r1 := processCandidate env item fs i url
    let r2 := downloadAll env item r1.1 rest
    (r2.1, r1.2.1 ++ r2.2.1, r1.2.2.toList ++ r2.2.2)

/-- The best-image selection of image_tool.py:432-441: look for the
entry whose `img_idx` equals `best_index`; if absent, fall back to the
first entry of `downloaded_images`. -/
def selectBest (downloaded : List (Nat × FPath)) (best : Nat) : Option FPath :=
  match downloaded.find? (fun q => q.1 = best) with
  | some q => some q.2
  | none => downloaded.head?.map (fun q => q.2)

/-- The tail of the per-keyword body (image_tool.py:394-450): download
all candidates, bail out if none survived, else select and copy the
chosen candidate (`shutil.copy2`) to the final output path. -/
def processAfterBest (env : Env) (fs : FS) (item : KeywordRec)
    (urls : List String) (best : Nat) : FS × List Eff :=
  let fp := FPath.final item.id (slug item.keyword)
  let r := downloadAll env item fs (urls.enum)
  if r.2.2.isEmpty then (r.1, r.2.1)
  else
    match selectBest r.2.2 best with
    | some bp => ((r.1).update fp (r.1 bp), r.2.1 ++ [Eff.copy bp fp])
    | none => (r.1, r.2.1)

/-- One iteration of the main keyword loop (image_tool.py:357-450).
Returns the filesystem, the effects, and `true` when the iteration
raised an uncaught exception (which aborts the whole run).  Temp files
written by the evaluator live outside the two persistent roots and are
not tracked in `FS`. -/
def processKeyword (env : Env) (fs : FS) (item : KeywordRec) :
    FS × List Eff × Bool :=
  let fp := FPath.final item.id (slug item.keyword)
  match fs fp with
  | some _ => (fs, [], false)
  | none =>
    let pre := [Eff.mkdir item.id (slug item.keyword), Eff.search item.keyword]
    let urls := (search_images env.numResults (env.pages item.keyword)).1
    if urls.isEmpty then (fs, pre, false)
    else
      match (if env.useGeminiEval then evaluateBestTool env urls
             else Except.ok 0) with
      | .error _ => (fs, pre, true)
      | .ok best =>
        let r := processAfterBest env fs item urls best
        (r.1, pre ++ r.2, false)

/-- The main loop over the selected keyword records
(image_tool.py:357-456); an uncaught exception in one iteration
terminates the process, leaving the remaining records unprocessed. -/
def runPipeline (env : Env) : FS → List KeywordRec → FS × List Eff × Bool
  | fs, [] => (fs, [], false)
  | fs, item :: rest =>
    let r1 := processKeyword env fs item
    if r1.2.2 then (r1.1, r1.2.1, true)
    else
      let r2 := runPipeline env r1.1 rest
      (r2.1, r1.2.1 ++ r2.2.1, r2.2.2)

/-! ## `evaluate_best.py` (separate evaluation driver) -/

/-- Python's `<` on `str`: lexicographic comparison of code points. -/
def charListLt : List Char → List Char → Bool
  | [], [] => false
  | [], _ :: _ => true
  | _ :: _, [] => false
  | c :: cs, d :: ds =>
    if c.toNat < d.toNat then true
    else if d.toNat < c.toNat then false
    else charListLt cs ds

def strLt (s t : String) : Bool := charListLt s.data t.data

/-- Stable insertion into a sorted list of strings, with Python's `<`
on `str`. -/
def insertStr (s : String) : List String → List String
  | [] => [s]
  | t :: ts => if strLt t s then t :: insertStr s ts else s :: t :: ts

/-- Python's `sorted` on a list of strings. -/
def sortStrings : List String → List String
  | [] => []
  | s :: ss => insertStr s (sortStrings ss)

/-- Python `str.startswith`, as a code-point prefix test. -/
def pyStartsWith (s pre : String) : Bool := pre.data.isPrefixOf s.data

/-- Python `str.endswith`, as a code-point suffix test. -/
def pyEndsWith (s suf : String) : Bool :=
  suf.data.reverse.isPrefixOf s.data.reverse

/-- `evaluate_best.py:25-28`: the sorted candidate file listing
(`f.startswith('candidate_') and f.endswith('.jpg')`). -/
def candidateFiles (listing : List String) : List String :=
  sortStrings (listing.filter
    (fun f => pyStartsWith f "candidate_" && pyEndsWith f ".jpg"))

/-- The decision core of `evaluate_best.py`'s `evaluate_best_image`
(lines 22-115): over a candidate folder listing and the parsed leading
token of the evaluator response, the chosen candidate filename. -/
def bestFile (listing : List String) (parsed : Option Int) : Option String :=
  let cfs := candidateFiles listing
  if cfs.isEmpty then none
  else
    let b := chooseIndex1 parsed cfs.length
    if 1 ≤ b ∧ b ≤ cfs.length then some (cfs.getD (b - 1) "") else none

/-- `evaluate_best.py`'s `evaluate_best_image`: returns
`os.path.join(images_folder, best_file)` (line 113). -/
def evaluate_best_image_sep (folder : String) (listing : List String)
    (parsed : Option Int) : Option String :=
  (bestFile listing parsed).map (fun f => folder ++ "/" ++ f)

/-! ## Keyword selection (image_tool.py:301-340, download_images.py:184-214,
evaluate_best.py:134-164) -/

/-- One comma-separated element of `PROCESS_IDS`: a literal id, or a
range `"<sp>-<sn>:<ep>-<en>"` whose endpoints were split on `-` and
parsed with `int()`. -/
inductive IdSpec
  | single (s : String)
  | range (startPart startNum endPart endNum : Nat)
deriving DecidableEq, Repr

/-- Expansion of one id spec (image_tool.py:308-324): a cross-partition
range is reported and skipped, contributing no ids. -/
def expandSpec : IdSpec → List String
  | .single s => [s]
  | .range sp sn ep en =>
    if sp ≠ ep then []
    else (List.range' sn (en + 1 - sn)).map
      (fun n => toString sp ++ "-" ++ toString n)

/-- The `selected_ids` set, as a list used for membership only. -/
def selectedIds (specs : List IdSpec) : List String :=
  (specs.map expandSpec).flatten

/-- `id.split('-')[0]` (image_tool.py:332). -/
def partOf (id : String) : String := (id.splitOn "-").headD ""

/-- The selection-mode configuration surface: `PROCESS_IDS` (already
split and parsed), `PROCESS_PARTS` (already split), `START_INDEX`,
`END_INDEX`.  An unset or empty (Python-falsy) variable is `none`. -/
structure SelConfig where
  processIds : Option (List IdSpec)
  processParts : Option (List String)
  startIndex : Nat
  endIndex : Nat

/-- The `if process_ids_str: ... elif process_parts_str: ... else: ...`
mode dispatch (image_tool.py:305-340). -/
def selectKeywords (cfg : SelConfig) (data : List KeywordRec) :
    List KeywordRec :=
  match cfg.processIds with
  | some specs => data.filter (fun k => (selectedIds specs).contains k.id)
  | none =>
    match cfg.processParts with
    | some parts => data.filter (fun k => parts.contains (partOf k.id))
    | none => ((data.drop cfg.startIndex).take (cfg.endIndex - cfg.startIndex))

/-! ## Concrete instances used by counterexamples and witnesses -/

/-- Every attempt: HTTP 200, a large decodable payload, but the
`img.save` call raises mid-write (e.g. truncated image data whose decode
is forced only during encoding). -/
def c1failEnv : Nat → AttemptEnv := fun _ => .resp 200 2000 (some 7) false

/-- Every attempt succeeds outright. -/
def c1okEnv : Nat → AttemptEnv := fun _ => .resp 200 2000 (some 5) true

/-- A provider that answers every page with exactly the number of items
requested. -/
def fullOracle : Nat → Nat → PageResult := fun _ a => .ok (List.replicate a "u")

/-- A misbehaving provider that answers a request for at most 5 items
with 6 items. -/
def c8overOracle : Nat → Nat → PageResult :=
  fun _ _ => .ok ["u1", "u2", "u3", "u4", "u5", "u6"]

/-- Page 0 succeeds with one item, every later page fails with a
transport error. -/
def errOracle : Nat → Nat → PageResult :=
  fun i _ => if i = 0 then .ok ["a"] else .error

/-- An inert environment: empty searches, failing downloads, evaluator
disabled. -/
def trivEnv : Env where
  pages := fun _ _ _ => .error
  numResults := 5
  attempts := fun _ _ => .netError
  jpegSize := fun _ => 0
  verifyOk := fun _ => false
  useGeminiEval := false
  tempAttempts := fun _ _ => .netError
  uploadRaises := fun _ => false
  genParsed := none

def itemRA : KeywordRec := ⟨"1-1", "red apple"⟩

/-- A filesystem in which the final output for `itemRA` already exists. -/
def fsRA : FS := fun p =>
  if p = FPath.final "1-1" "red_apple" then some (Content.raw 0) else none

/-- C7 scenario: the search returns two urls; the first url's download
always fails, the second succeeds with a large valid image; evaluator
disabled. -/
def scenEnv : Env where
  pages := fun _ _ _ => .ok ["u1", "u2"]
  numResults := 5
  attempts := fun u _ => if u = "u2" then .resp 200 2000 (some 2) true else .netError
  jpegSize := fun _ => 4096
  verifyOk := fun _ => true
  useGeminiEval := false
  tempAttempts := fun _ _ => .netError
  uploadRaises := fun _ => false
  genParsed := none

def scenItem : KeywordRec := ⟨"1-1", "kw"⟩

/-- C5 scenario: Gemini evaluation enabled, the temp download of the
single candidate succeeds, and `genai.upload_file` raises. -/
def crashEnv : Env where
  pages := fun kw _ _ => if kw = "k1" then .ok ["u"] else .ok ["v"]
  numResults := 5
  attempts := fun _ _ => .netError
  jpegSize := fun _ => 0
  verifyOk := fun _ => false
  useGeminiEval := true
  tempAttempts := fun _ _ => .resp 200 2000 (some 1) true
  uploadRaises := fun _ => true
  genParsed := none

def items5 : List KeywordRec := [⟨"1-1", "k1"⟩, ⟨"1-2", "k2"⟩]

/-- `candidate_<k>.jpg`. -/
def candName (k : Nat) : String := "candidate_" ++ toString k ++ ".jpg"

/-- A folder listing holding exactly `candidate_1.jpg` …
`candidate_<n>.jpg`. -/
def stdListing (n : Nat) : List String :=
  (List.range n).map (fun i => candName (i + 1))

/-! # Theorems -/

/-! ## C1 — `download_image` post-state -/

/-- Invariant of the retry loop: starting from an absent or partial
destination, failure leaves the destination absent or partial, and
success leaves a complete quality-95 re-encode, the write having passed
through an observable partial state. -/
theorem downloadLoop_invariant (env : Nat → AttemptEnv) :
    ∀ fuel a cur tr, (cur = none ∨ cur = some Content.partialData) →
      ((downloadLoop env fuel a cur tr).1 = false →
        (downloadLoop env fuel a cur tr).2.1 = none ∨
        (downloadLoop env fuel a cur tr).2.1 = some Content.partialData) ∧
      ((downloadLoop env fuel a cur tr).1 = true →
        (∃ img, (downloadLoop env fuel a cur tr).2.1 =
          some (Content.jpegQ95 img)) ∧
        some Content.partialData ∈ (downloadLoop env fuel a cur tr).2.2)
  | 0, a, cur, tr, h => by
    refine ⟨fun _ => ?_, fun hT => ?_⟩
    · simpa [downloadLoop] using h
    · simp [downloadLoop] at hT
  | fuel + 1, a, cur, tr, h => by
    cases hE : env a with
    | netError =>
      simpa [downloadLoop, hE] using
        downloadLoop_invariant env fuel (a + 1) cur tr h
    | resp status size dec saveOk =>
      by_cases h200 : status = 200
      · by_cases hSmall : size < 1024
        · simpa [downloadLoop, hE, h200, hSmall] using
            downloadLoop_invariant env fuel (a + 1) cur tr h
        · cases dec with
          | none =>
            simpa [downloadLoop, hE, h200, hSmall] using
              downloadLoop_invariant env fuel (a + 1) cur tr h
          | some img =>
            cases saveOk with
            | true =>
              refine ⟨fun hF => ?_, fun _ => ?_⟩
              · simp [downloadLoop, hE, h200, hSmall] at hF
              · refine ⟨⟨img, ?_⟩, ?_⟩ <;>
                  simp [downloadLoop, hE, h200, hSmall]
            | false =>
              simpa [downloadLoop, hE, h200, hSmall] using
                downloadLoop_invariant env fuel (a + 1)
                  (some Content.partialData)
                  (tr ++ [some Content.partialData]) (Or.inr rfl)
      · simpa [downloadLoop, hE, h200] using
          downloadLoop_invariant env fuel (a + 1) cur tr h

/-- C1, counterexample: with every attempt reaching the save step and the
save raising mid-write, `download_image` returns failure yet a (partial)
file exists at the destination path — refuting "if it returns failure
after exhausting its attempts then no file exists at the destination
path".  Moreover a successful call passes through an observable partial
state at the destination, refuting "written atomically". -/
theorem c1_download_counterexample :
    ((download_image c1failEnv 3 none).1 = false ∧
      (download_image c1failEnv 3 none).2.1 ≠ none) ∧
    ((download_image c1okEnv 3 none).1 = true ∧
      some Content.partialData ∈ (download_image c1okEnv 3 none).2.2) := by
  decide

/-- C1, amended: on a fresh destination, if `download_image` returns
failure then the destination holds no complete file (it is absent, or a
partial file when a save-stage error occurred); if it returns success
then the destination holds a complete quality-95 JPEG re-encode, the
write being direct rather than atomic (an intermediate partial state is
observable at the destination during the call). -/
theorem c1_download_post (env : Nat → AttemptEnv) (n : Nat) :
    ((download_image env n none).1 = false →
      (download_image env n none).2.1 = none ∨
      (download_image env n none).2.1 = some Content.partialData) ∧
    ((download_image env n none).1 = true →
      (∃ img, (download_image env n none).2.1 =
        some (Content.jpegQ95 img)) ∧
      some Content.partialData ∈ (download_image env n none).2.2) := by
  simpa [download_image] using
    downloadLoop_invariant env n 0 none [none] (Or.inl rfl)

/-- C1 witness: the amended theorem applied at a concrete succeeding
environment. -/
theorem c1_download_post_witness :
    (download_image c1okEnv 3 none).1 = true ∧
    ((∃ img, (download_image c1okEnv 3 none).2.1 =
        some (Content.jpegQ95 img)) ∧
      some Content.partialData ∈ (download_image c1okEnv 3 none).2.2) :=
  ⟨by decide, (c1_download_post c1okEnv 3).2 (by decide)⟩

/-! ## C4 — evaluator response fallback -/

/-- C4: in both drivers, an evaluator response whose leading token does
not parse as an integer, or parses to an integer outside 1..N, makes the
selector choose rank 1 (`chooseIndex1` returns the 1-based rank,
`chooseIndex0` the 0-based index, so rank `chooseIndex0 + 1`). -/
theorem c4_invalid_response_rank1 (parsed : Option Int) (n : Nat)
    (h : parsed = none ∨ ∃ k, parsed = some k ∧ (k < 1 ∨ (n : Int) < k)) :
    chooseIndex1 parsed n = 1 ∧ chooseIndex0 parsed n + 1 = 1 := by
  rcases h with h | ⟨k, rfl, hk⟩
  · subst h; simp [chooseIndex0, chooseIndex1]
  · constructor
    · simp only [chooseIndex1]
      rw [if_neg]; omega
    · simp only [chooseIndex0]
      split
      · rcases hk with hk | hk
        · have hk0 : k = 0 := by omega
          subst hk0; simp
        · omega
      · rfl

/-- C4 witness: response "7" with only 3 candidates yields rank 1 in
both drivers. -/
theorem c4_invalid_response_rank1_witness :
    chooseIndex1 (some 7) 3 = 1 ∧ chooseIndex0 (some 7) 3 + 1 = 1 :=
  c4_invalid_response_rank1 (some 7) 3
    (Or.inr ⟨7, rfl, Or.inr (by decide)⟩)

/-! ## C3 / C6 / C8 — pagination -/

/-- Every page request carries `num = min 10 _ ≤ 10`. -/
theorem searchLoop_num_le (oracle : Nat → Nat → PageResult) (maxTotal : Nat) :
    ∀ fuel idx acc log, (∀ r ∈ log, r.num ≤ 10) →
      ∀ r ∈ (searchLoop oracle maxTotal fuel idx acc log).2, r.num ≤ 10
  | 0, idx, acc, log, hlog => by simpa [searchLoop] using hlog
  | fuel + 1, idx, acc, log, hlog => by
    simp only [searchLoop]
    split
    · exact hlog
    · have hlog' : ∀ r ∈ log ++ [⟨10 * idx + 1,
          min 10 (maxTotal - acc.length)⟩], r.num ≤ 10 := by
        intro r hr
        rcases List.mem_append.1 hr with hr | hr
        · exact hlog r hr
        · simp at hr; subst hr; simp
      cases hO : oracle idx (min 10 (maxTotal - acc.length)) with
      | error => simpa [hO] using hlog'
      | ok items =>
        by_cases hI : items.isEmpty
        · simpa [hO, hI] using hlog'
        · simpa [hO, hI] using
            searchLoop_num_le oracle maxTotal fuel (idx + 1)
              (acc ++ items) _ hlog'

/-- When the provider answers each requested page with exactly the
number of items requested, the loop issues one request per remaining
iteration, with `start = 10·i + 1` and `num = min 10 (maxTotal - 10·i)`. -/
theorem searchLoop_log_full (oracle : Nat → Nat → PageResult)
    (maxTotal : Nat)
    (h : ∀ i a, i < (maxTotal + 9) / 10 →
      ∃ l, oracle i a = .ok l ∧ l.length = a) :
    ∀ fuel idx acc log, fuel + idx = (maxTotal + 9) / 10 →
      (fuel ≠ 0 → acc.length = 10 * idx) →
      (searchLoop oracle maxTotal fuel idx acc log).2 =
        log ++ (List.range fuel).map
          (fun j => ⟨10 * (idx + j) + 1, min 10 (maxTotal - 10 * (idx + j))⟩)
  | 0, idx, acc, log, _, _ => by simp [searchLoop]
  | fuel + 1, idx, acc, log, hR, hacc => by
    have haccl : acc.length = 10 * idx := hacc (by omega)
    have hidx : 10 * idx < maxTotal := by omega
    have hneed : min 10 (maxTotal - acc.length) ≠ 0 := by
      rw [haccl]; omega
    obtain ⟨l, hl, hlen⟩ :=
      h idx (min 10 (maxTotal - acc.length)) (by omega)
    have hlne : ¬ l.isEmpty := by
      rw [List.isEmpty_iff]
      intro hnil
      rw [hnil] at hlen
      simp at hlen
      omega
    have hrec :=
      searchLoop_log_full oracle maxTotal h fuel (idx + 1) (acc ++ l)
        (log ++ [⟨10 * idx + 1, min 10 (maxTotal - acc.length)⟩])
        (by omega)
        (by
          intro hf
          have hlt : 10 * (idx + 1) < maxTotal := by omega
          simp only [List.length_append, haccl, hlen]
          omega)
    have hstep : searchLoop oracle maxTotal (fuel + 1) idx acc log =
        searchLoop oracle maxTotal fuel (idx + 1) (acc ++ l)
          (log ++ [⟨10 * idx + 1, min 10 (maxTotal - acc.length)⟩]) := by
      simp [searchLoop, hneed, hl, hlne]
    rw [hstep, hrec, List.append_assoc]
    congr 1
    rw [List.range_succ_eq_map]
    simp only [List.map_cons, List.map_map, List.singleton_append]
    congr 1
    · simp [haccl]
    · apply List.map_congr_left
      intro j _
      have hj : idx + 1 + j = idx + (j + 1) := by omega
      simp [Function.comp, hj]

/-- C3: when every page answers with the full number of items requested,
`search_images` issues exactly `⌈min(n,100)/10⌉` paged requests, each
requesting at most 10 results, with the 1-based start offset advancing
by 10 per request. -/
theorem c3_pagination_arithmetic (num : Nat)
    (oracle : Nat → Nat → PageResult)
    (h : ∀ i a, i < requestsNeeded num →
      ∃ l, oracle i a = .ok l ∧ l.length = a) :
    (search_images num oracle).2 =
      (List.range (requestsNeeded num)).map
        (fun i => ⟨10 * i + 1, min 10 (min num 100 - 10 * i)⟩) ∧
    ∀ r ∈ (search_images num oracle).2, r.num ≤ 10 := by
  constructor
  · have := searchLoop_log_full oracle (min num 100)
      (by simpa [requestsNeeded] using h)
      (requestsNeeded num) 0 [] [] (by simp [requestsNeeded]) (by simp)
    simpa [search_images] using this
  · intro r hr
    exact searchLoop_num_le oracle (min num 100) (requestsNeeded num) 0 [] []
      (fun r hr => absurd hr (List.not_mem_nil r)) r hr

/-- C3 witness: requesting 25 results against a full provider issues
exactly 3 paged requests (10+10+5); requesting 100 issues exactly 10;
requesting 5 issues exactly 1. -/
theorem c3_pagination_arithmetic_witness :
    (search_images 25 fullOracle).2 =
      [⟨1, 10⟩, ⟨11, 10⟩, ⟨21, 5⟩] ∧
    (search_images 100 fullOracle).2.length = 10 ∧
    (search_images 5 fullOracle).2 = [⟨1, 5⟩] := by
  have hfull : ∀ n, ∀ i a, i < requestsNeeded n →
      ∃ l, fullOracle i a = PageResult.ok l ∧ l.length = a :=
    fun _ _ a _ => ⟨List.replicate a "u", rfl, by simp⟩
  refine ⟨?_, ?_, ?_⟩
  · rw [(c3_pagination_arithmetic 25 fullOracle (hfull 25)).1]; decide
  · rw [(c3_pagination_arithmetic 100 fullOracle (hfull 100)).1]; decide
  · rw [(c3_pagination_arithmetic 5 fullOracle (hfull 5)).1]; decide

/-- If an error occurs at page `idx + |ls|` after the pages
`idx .. idx + |ls| - 1` returned the non-empty item lists `ls` (with the
quota not yet reached), the loop stops at the failing page and returns
exactly the items gathered so far. -/
theorem searchLoop_error_partial (oracle : Nat → Nat → PageResult)
    (maxTotal : Nat) :
    ∀ (ls : List (List String)) (fuel idx : Nat) (acc : List String)
      (log : List Request),
      ls.length < fuel →
      (∀ i a, i < ls.length → oracle (idx + i) a = .ok (ls.getD i [])) →
      (∀ l ∈ ls, l ≠ []) →
      acc.length + ls.flatten.length < maxTotal →
      (∀ a, oracle (idx + ls.length) a = .error) →
      (searchLoop oracle maxTotal fuel idx acc log).1 = acc ++ ls.flatten ∧
      (searchLoop oracle maxTotal fuel idx acc log).2.length =
        log.length + ls.length + 1
  | [], fuel, idx, acc, log, hfuel, _hok, _hne, hsum, herr => by
    obtain ⟨f, rfl⟩ : ∃ f, fuel = f + 1 := ⟨fuel - 1, by omega⟩
    have hneed : min 10 (maxTotal - acc.length) ≠ 0 := by
      simp at hsum; omega
    have herr0 := herr (min 10 (maxTotal - acc.length))
    simp only [List.length_nil, Nat.add_zero] at herr0
    simp [searchLoop, hneed, herr0]
  | l :: ls', fuel, idx, acc, log, hfuel, hok, hne, hsum, herr => by
    obtain ⟨f, rfl⟩ : ∃ f, fuel = f + 1 := ⟨fuel - 1, by omega⟩
    have hneed : min 10 (maxTotal - acc.length) ≠ 0 := by
      simp at hsum; omega
    have hl : oracle idx (min 10 (maxTotal - acc.length)) = .ok l := by
      have := hok 0 (min 10 (maxTotal - acc.length)) (by simp)
      simpa using this
    have hlne : ¬ l.isEmpty := by
      rw [List.isEmpty_iff]
      exact hne l (by simp)
    have hrec := searchLoop_error_partial oracle maxTotal ls' f (idx + 1)
      (acc ++ l) (log ++ [⟨10 * idx + 1, min 10 (maxTotal - acc.length)⟩])
      (by simpa using hfuel)
      (by
        intro i a hi
        have := hok (i + 1) a (by simpa using Nat.succ_lt_succ hi)
        simpa [Nat.add_assoc, Nat.add_comm 1 i] using this)
      (fun x hx => hne x (List.mem_cons_of_mem l hx))
      (by simp at hsum ⊢; omega)
      (by
        intro a
        have := herr a
        simpa [Nat.add_assoc, Nat.add_comm 1 ls'.length] using this)
    have hstep : searchLoop oracle maxTotal (f + 1) idx acc log =
        searchLoop oracle maxTotal f (idx + 1) (acc ++ l)
          (log ++ [⟨10 * idx + 1, min 10 (maxTotal - acc.length)⟩]) := by
      simp [searchLoop, hneed, hl, hlne]
    rw [hstep]
    refine ⟨?_, ?_⟩
    · rw [hrec.1]; simp
    · rw [hrec.2]; simp; omega

/-- C6: a transport or HTTP-status failure while fetching a page stops
pagination at that page; `search_images` returns (it never raises) the
possibly-empty partial list gathered from the prior pages. -/
theorem c6_error_returns_partial (num : Nat)
    (oracle : Nat → Nat → PageResult) (j : Nat) (ls : List (List String))
    (hj : j < requestsNeeded num) (hlen : ls.length = j)
    (hok : ∀ i a, i < j → oracle i a = .ok (ls.getD i []))
    (hne : ∀ l ∈ ls, l ≠ [])
    (hsum : ls.flatten.length < min num 100)
    (herr : ∀ a, oracle j a = .error) :
    (search_images num oracle).1 = ls.flatten ∧
    (search_images num oracle).2.length = j + 1 := by
  subst hlen
  have := searchLoop_error_partial oracle (min num 100) ls
    (requestsNeeded num) 0 [] []
    (by simpa [requestsNeeded] using hj)
    (by simpa using hok)
    hne (by simpa using hsum) (by simpa using herr)
  simpa [search_images] using this

/-- C6 witness: page 0 yields one result, page 1 errors; the partial
list `["a"]` is returned after exactly 2 requests. -/
theorem c6_error_returns_partial_witness :
    (search_images 25 errOracle).1 = ["a"] ∧
    (search_images 25 errOracle).2.length = 2 := by
  have h := c6_error_returns_partial 25 errOracle 1 [["a"]]
    (by decide) rfl
    (by
      intro i a hi
      have hi0 : i = 0 := by omega
      subst hi0; rfl)
    (by decide) (by decide)
    (fun a => rfl)
  simpa using h

/-- The accumulator never exceeds the quota when each answered page
holds at most the number of items requested. -/
theorem searchLoop_length_le (oracle : Nat → Nat → PageResult)
    (maxTotal : Nat)
    (h : ∀ i a l, oracle i a = .ok l → l.length ≤ a) :
    ∀ fuel idx acc log, acc.length ≤ maxTotal →
      (searchLoop oracle maxTotal fuel idx acc log).1.length ≤ maxTotal
  | 0, idx, acc, log, hacc => by simpa [searchLoop] using hacc
  | fuel + 1, idx, acc, log, hacc => by
    simp only [searchLoop]
    split
    · exact hacc
    · rename_i hneed
      cases hO : oracle idx (min 10 (maxTotal - acc.length)) with
      | error => simpa using hacc
      | ok items =>
        by_cases hI : items.isEmpty
        · simpa [hI] using hacc
        · simp only [hI, if_neg, Bool.false_eq_true, not_false_iff]
          refine searchLoop_length_le oracle maxTotal h fuel (idx + 1)
            (acc ++ items) _ ?_
          have hle := h idx (min 10 (maxTotal - acc.length)) items hO
          simp only [List.length_append]
          omega

/-- C8, counterexample: a page answering a request for 5 items with 6
items makes `search_images 5` return 6 results, refuting
"length at most min(n, 100)" over every sequence of provider page
responses. -/
theorem c8_length_counterexample :
    ¬ ((search_images 5 c8overOracle).1.length ≤ min 5 100) := by
  decide

/-- C8, amended: when every answered page holds at most the number of
items requested in the corresponding request (as the provider's `num`
parameter demands), the result list has length at most `min(n, 100)`. -/
theorem c8_length_le (num : Nat) (oracle : Nat → Nat → PageResult)
    (h : ∀ i a l, oracle i a = .ok l → l.length ≤ a) :
    (search_images num oracle).1.length ≤ min num 100 :=
  searchLoop_length_le oracle (min num 100) h (requestsNeeded num) 0 [] []
    (by simp)

/-- C8 witness: the amended bound applied at `n = 5` against a provider
answering each request exactly. -/
theorem c8_length_le_witness :
    (search_images 5 fullOracle).1.length ≤ min 5 100 :=
  c8_length_le 5 fullOracle
    (by
      intro i a l hl
      cases hl
      simp)

/-! ## C2 — idempotence marker -/

/-- A candidate download step never touches any file in the output
directory. -/
theorem processCandidate_final (env : Env) (item : KeywordRec) (fs : FS)
    (i : Nat) (url : String) (id sl : String) :
    (processCandidate env item fs i url).1 (FPath.final id sl) =
      fs (FPath.final id sl) := by
  unfold processCandidate
  dsimp only
  repeat' split
  all_goals simp [FS.update]

/-- The candidate download loop never touches any file in the output
directory. -/
theorem downloadAll_final (env : Env) (item : KeywordRec) :
    ∀ (ps : List (Nat × String)) (fs : FS) (id sl : String),
      (downloadAll env item fs ps).1 (FPath.final id sl) =
        fs (FPath.final id sl)
  | [], fs, id, sl => rfl
  | (i, url) :: rest, fs, id, sl => by
    simp only [downloadAll]
    rw [downloadAll_final env item rest _ id sl]
    exact processCandidate_final env item fs i url id sl

/-- A keyword iteration preserves every already-present output file. -/
theorem processKeyword_preserves_final (env : Env) (fs : FS)
    (item : KeywordRec) (id sl : String) (c : Content)
    (h : fs (FPath.final id sl) = some c) :
    (processKeyword env fs item).1 (FPath.final id sl) = some c := by
  unfold processKeyword
  dsimp only
  split
  next c' hfp => exact h
  next hfp =>
    split
    · exact h
    · split
      · exact h
      · unfold processAfterBest
        dsimp only
        split
        · rw [downloadAll_final]; exact h
        · split
          · by_cases heq :
              FPath.final id sl = FPath.final item.id (slug item.keyword)
            · rw [heq] at h; rw [h] at hfp; cases hfp
            · simp only [FS.update]
              rw [if_neg heq, downloadAll_final]
              exact h
          · rw [downloadAll_final]; exact h

/-- A whole run preserves every already-present output file. -/
theorem runPipeline_preserves_final (env : Env) :
    ∀ (items : List KeywordRec) (fs : FS) (id sl : String) (c : Content),
      fs (FPath.final id sl) = some c →
      (runPipeline env fs items).1 (FPath.final id sl) = some c
  | [], fs, id, sl, c, h => h
  | item :: rest, fs, id, sl, c, h => by
    simp only [runPipeline]
    split
    · exact processKeyword_preserves_final env fs item id sl c h
    · exact runPipeline_preserves_final env rest _ id sl c
        (processKeyword_preserves_final env fs item id sl c h)

/-- C2: a keyword whose final output file already exists is skipped with
no search request, no download and no filesystem write (the iteration is
the identity with an empty effect list); and a run never changes any
already-present output file, so a second run is a no-op on every keyword
whose output the first run produced. -/
theorem c2_skip_marker :
    (∀ (env : Env) (fs : FS) (item : KeywordRec) (c : Content),
      fs (FPath.final item.id (slug item.keyword)) = some c →
      processKeyword env fs item = (fs, [], false)) ∧
    (∀ (env : Env) (fs : FS) (items : List KeywordRec)
      (id sl : String) (c : Content),
      fs (FPath.final id sl) = some c →
      (runPipeline env fs items).1 (FPath.final id sl) = some c) := by
  constructor
  · intro env fs item c h
    simp only [processKeyword]
    rw [h]
  · intro env fs items id sl c h
    exact runPipeline_preserves_final env items fs id sl c h

/-- C2 witness: with `output/1-1_red_apple.jpg` present, the iteration
for `1-1 / "red apple"` is a no-op and a run leaves the file intact. -/
theorem c2_skip_marker_witness :
    processKeyword trivEnv fsRA itemRA = (fsRA, [], false) ∧
    (runPipeline trivEnv fsRA [itemRA]).1 (FPath.final "1-1" "red_apple") =
      some (Content.raw 0) :=
  ⟨c2_skip_marker.1 trivEnv fsRA itemRA (Content.raw 0) (by decide),
   c2_skip_marker.2 trivEnv fsRA [itemRA] "1-1" "red_apple" (Content.raw 0)
     (by decide)⟩

/-! ## C9 — selection modes -/

/-- C9: (i) when an explicit id set is configured, the selection ignores
the partition set and the index range entirely; (ii) when only a
partition set is configured, the selection ignores the index range;
(iii) a range whose endpoints have different partition prefixes expands
to no ids at all; (iv) hence such a range leaves the selected keyword
set exactly as if the range were absent. -/
theorem c9_selection_modes :
    (∀ (specs : List IdSpec) (parts parts' : Option (List String))
      (s e s' e' : Nat) (data : List KeywordRec),
      selectKeywords ⟨some specs, parts, s, e⟩ data =
      selectKeywords ⟨some specs, parts', s', e'⟩ data) ∧
    (∀ (parts : List String) (s e s' e' : Nat) (data : List KeywordRec),
      selectKeywords ⟨none, some parts, s, e⟩ data =
      selectKeywords ⟨none, some parts, s', e'⟩ data) ∧
    (∀ (sp sn ep en : Nat) (rest : List IdSpec), sp ≠ ep →
      selectedIds (IdSpec.range sp sn ep en :: rest) = selectedIds rest) ∧
    (∀ (sp sn ep en : Nat) (rest : List IdSpec)
      (parts : Option (List String)) (s e : Nat) (data : List KeywordRec),
      sp ≠ ep →
      selectKeywords ⟨some (IdSpec.range sp sn ep en :: rest), parts, s, e⟩
        data =
      selectKeywords ⟨some rest, parts, s, e⟩ data) := by
  have hskip : ∀ (sp sn ep en : Nat) (rest : List IdSpec), sp ≠ ep →
      selectedIds (IdSpec.range sp sn ep en :: rest) = selectedIds rest := by
    intro sp sn ep en rest h
    simp [selectedIds, expandSpec, h]
  refine ⟨fun _ _ _ _ _ _ _ _ => rfl, fun _ _ _ _ _ _ => rfl, hskip, ?_⟩
  intro sp sn ep en rest parts s e data h
  simp only [selectKeywords]
  rw [hskip sp sn ep en rest h]

/-- C9 witness: the cross-partition range `1-1:2-3` contributes no ids,
and its presence does not change the selected keywords. -/
theorem c9_selection_modes_witness :
    selectedIds [IdSpec.range 1 1 2 3] = selectedIds [] ∧
    selectKeywords ⟨some [IdSpec.range 1 1 2 3, IdSpec.single "1-1"],
        none, 0, 0⟩ [⟨"1-1", "kw"⟩] =
      selectKeywords ⟨some [IdSpec.single "1-1"], none, 0, 0⟩ [⟨"1-1", "kw"⟩] :=
  ⟨c9_selection_modes.2.2.1 1 1 2 3 [] (by decide),
   c9_selection_modes.2.2.2 1 1 2 3 [IdSpec.single "1-1"] none 0 0
     [⟨"1-1", "kw"⟩] (by decide)⟩

/-! ## C5 — batch abort on evaluator upload failure -/

/-- C5: the claim fails on the code.  With Gemini evaluation enabled,
when the first keyword's search succeeds, its temp download succeeds and
`genai.upload_file` raises (image_tool.py:206 — the one evaluator call
outside any `try` block), the exception propagates out of
`evaluate_best_image` into `main`'s unprotected loop body: the run
aborts and the second keyword is never searched. -/
theorem c5_upload_exception_aborts_batch :
    (runPipeline crashEnv (fun _ => none) items5).2.2 = true ∧
    Eff.search "k2" ∉ (runPipeline crashEnv (fun _ => none) items5).2.1 := by
  decide

/-! ## C7 — fallback to the first available candidate -/

/-- `download_image`'s boolean result, and its final content on success,
do not depend on the destination's prior content or on the trace
accumulator. -/
theorem downloadLoop_indep (env : Nat → AttemptEnv) :
    ∀ fuel a cur tr cur' tr',
      (downloadLoop env fuel a cur tr).1 =
        (downloadLoop env fuel a cur' tr').1 ∧
      ((downloadLoop env fuel a cur tr).1 = true →
        (downloadLoop env fuel a cur tr).2.1 =
          (downloadLoop env fuel a cur' tr').2.1)
  | 0, a, cur, tr, cur', tr' => by simp [downloadLoop]
  | fuel + 1, a, cur, tr, cur', tr' => by
    cases hE : env a with
    | netError =>
      simpa [downloadLoop, hE] using
        downloadLoop_indep env fuel (a + 1) cur tr cur' tr'
    | resp status size dec saveOk =>
      by_cases h200 : status = 200
      · by_cases hSmall : size < 1024
        · simpa [downloadLoop, hE, h200, hSmall] using
            downloadLoop_indep env fuel (a + 1) cur tr cur' tr'
        · cases dec with
          | none =>
            simpa [downloadLoop, hE, h200, hSmall] using
              downloadLoop_indep env fuel (a + 1) cur tr cur' tr'
          | some img =>
            cases saveOk with
            | true => simp [downloadLoop, hE, h200, hSmall]
            | false =>
              simpa [downloadLoop, hE, h200, hSmall] using
                downloadLoop_indep env fuel (a + 1)
                  (some Content.partialData) (tr ++ [some Content.partialData])
                  (some Content.partialData) (tr' ++ [some Content.partialData])
      · simpa [downloadLoop, hE, h200] using
          downloadLoop_indep env fuel (a + 1) cur tr cur' tr'

/-- The kept-entry and written-content behavior of one candidate step is
fully described by `candOutcome`. -/
theorem processCandidate_spec (env : Env) (item : KeywordRec) (fs : FS)
    (i : Nat) (url : String) :
    ((processCandidate env item fs i url).2.2 =
      (candOutcome env url).map
        (fun _ => (i, FPath.candidate item.id (slug item.keyword) (i + 1)))) ∧
    (∀ img, candOutcome env url = some img →
      (processCandidate env item fs i url).1
        (FPath.candidate item.id (slug item.keyword) (i + 1)) =
        some (Content.jpegQ95 img)) := by
  have hind := downloadLoop_indep (env.attempts url) 3 0
    (fs (FPath.candidate item.id (slug item.keyword) (i + 1)))
    [fs (FPath.candidate item.id (slug item.keyword) (i + 1))] none [none]
  have hinv := downloadLoop_invariant (env.attempts url) 3 0 none [none]
    (Or.inl rfl)
  cases hb0 : (download_image (env.attempts url) 3 none).1 with
  | false =>
    have hb : (download_image (env.attempts url) 3
        (fs (FPath.candidate item.id (slug item.keyword) (i + 1)))).1 =
          false := by
      simp only [download_image] at hb0 ⊢
      rw [hind.1, hb0]
    constructor
    · simp [processCandidate, candOutcome, hb, hb0]
    · intro img himg
      simp only [candOutcome, download_image] at himg
      simp only [download_image] at hb0
      simp [hb0] at himg
  | true =>
    have hb : (download_image (env.attempts url) 3
        (fs (FPath.candidate item.id (slug item.keyword) (i + 1)))).1 =
          true := by
      simp only [download_image] at hb0 ⊢
      rw [hind.1, hb0]
    obtain ⟨⟨img, himg⟩, -⟩ := hinv.2 (by simpa [download_image] using hb0)
    have hc : (download_image (env.attempts url) 3
        (fs (FPath.candidate item.id (slug item.keyword) (i + 1)))).2.1 =
          some (Content.jpegQ95 img) := by
      simp only [download_image] at himg hb ⊢
      rw [hind.2 hb, himg]
    have hc0 : (download_image (env.attempts url) 3 none).2.1 =
        some (Content.jpegQ95 img) := by
      simpa [download_image] using himg
    constructor
    · simp only [processCandidate, candOutcome, hb, hb0, hc, hc0, if_true]
      by_cases hsz : env.jpegSize img < 1024
      · simp [hsz]
      · by_cases hv : env.verifyOk img <;> simp [hsz, hv]
    · intro img' himg'
      simp only [candOutcome, hb0, hc0, if_true] at himg'
      by_cases hsz : env.jpegSize img < 1024
      · simp [hsz] at himg'
      · by_cases hv : env.verifyOk img
        · simp only [if_neg hsz, hv, if_true] at himg'
          cases himg'
          simp [processCandidate, hb, hc, FS.update, hsz, hv]
        · simp [hsz, hv] at himg'

/-- One candidate step never touches any other path. -/
theorem processCandidate_preserves (env : Env) (item : KeywordRec)
    (fs : FS) (i : Nat) (url : String) (q : FPath)
    (hq : q ≠ FPath.candidate item.id (slug item.keyword) (i + 1)) :
    (processCandidate env item fs i url).1 q = fs q := by
  unfold processCandidate
  dsimp only
  repeat' split
  all_goals simp [FS.update, hq]

/-- `downloaded_images` is exactly the rank-ordered sublist of
successful candidates. -/
theorem downloadAll_entries (env : Env) (item : KeywordRec) :
    ∀ (ps : List (Nat × String)) (fs : FS),
      (downloadAll env item fs ps).2.2 =
        ps.filterMap (fun q => (candOutcome env q.2).map
          (fun _ => (q.1, FPath.candidate item.id (slug item.keyword)
            (q.1 + 1))))
  | [], fs => rfl
  | (i, url) :: rest, fs => by
    simp only [downloadAll, List.filterMap_cons]
    rw [downloadAll_entries env item rest]
    rw [(processCandidate_spec env item fs i url).1]
    cases candOutcome env url <;> simp

/-- The candidate loop never touches a path outside its own candidate
paths. -/
theorem downloadAll_preserves (env : Env) (item : KeywordRec) :
    ∀ (ps : List (Nat × String)) (fs : FS) (q : FPath),
      (∀ pr ∈ ps,
        q ≠ FPath.candidate item.id (slug item.keyword) (pr.1 + 1)) →
      (downloadAll env item fs ps).1 q = fs q
  | [], fs, q, _ => rfl
  | (i, url) :: rest, fs, q, hq => by
    simp only [downloadAll]
    rw [downloadAll_preserves env item rest _ q
      (fun pr hpr => hq pr (List.mem_cons_of_mem _ hpr))]
    exact processCandidate_preserves env item fs i url q
      (hq (i, url) (List.mem_cons_self _ _))

/-- Every kept entry points at a candidate file whose content after the
loop is the complete re-encode of the image that passed validation. -/
theorem downloadAll_content (env : Env) (item : KeywordRec) :
    ∀ (ps : List (Nat × String)) (fs : FS),
      (List.map Prod.fst ps).Nodup →
      ∀ i p, (i, p) ∈ (downloadAll env item fs ps).2.2 →
        ∃ url img, (i, url) ∈ ps ∧ candOutcome env url = some img ∧
          (downloadAll env item fs ps).1 p = some (Content.jpegQ95 img) ∧
          p = FPath.candidate item.id (slug item.keyword) (i + 1)
  | [], fs, _, i, p, hmem => by simp [downloadAll] at hmem
  | (a, u) :: rest, fs, hnd, i, p, hmem => by
    simp only [List.map_cons, List.nodup_cons] at hnd
    simp only [downloadAll, List.mem_append] at hmem
    rcases hmem with hmem | hmem
    · cases hco : candOutcome env u with
      | none =>
        rw [(processCandidate_spec env item fs a u).1, hco] at hmem
        simp at hmem
      | some img =>
        rw [(processCandidate_spec env item fs a u).1, hco] at hmem
        simp at hmem
        obtain ⟨rfl, rfl⟩ := hmem
        refine ⟨u, img, List.mem_cons_self _ _, hco, ?_, rfl⟩
        simp only [downloadAll]
        rw [downloadAll_preserves env item rest _ _ ?_]
        · exact (processCandidate_spec env item fs i u).2 img hco
        · intro pr hpr hcontra
          simp only [FPath.candidate.injEq] at hcontra
          have hfst : pr.1 = i := by omega
          exact hnd.1 (hfst ▸ List.mem_map_of_mem Prod.fst hpr)
    · obtain ⟨url, img, hm, hco, hcont, hp⟩ :=
        downloadAll_content env item rest _ hnd.2 i p hmem
      refine ⟨url, img, List.mem_cons_of_mem _ hm, hco, ?_, hp⟩
      simp only [downloadAll]
      exact hcont

/-- C7: (general) if the chosen rank's candidate failed (its download or
validation did not succeed) while the kept-candidate list is non-empty,
the pipeline copies the first available candidate in rank order to the
output path: the output file's content equals that candidate file's
content; (scenario) with candidate 1 failing and candidate 2 succeeding,
evaluator disabled, the final output equals `candidate_2.jpg`'s content
while `candidate_1.jpg` does not exist. -/
theorem c7_fallback_first_available :
    (∀ (env : Env) (item : KeywordRec) (fs : FS) (urls : List String)
      (best i : Nat) (p : FPath),
      (∀ url, (best, url) ∈ urls.enum → candOutcome env url = none) →
      (downloadAll env item fs urls.enum).2.2.head? = some (i, p) →
      ∃ url img, (i, url) ∈ urls.enum ∧ candOutcome env url = some img ∧
        (processAfterBest env fs item urls best).1
          (FPath.final item.id (slug item.keyword)) =
          some (Content.jpegQ95 img) ∧
        (processAfterBest env fs item urls best).1 p =
          some (Content.jpegQ95 img) ∧
        p = FPath.candidate item.id (slug item.keyword) (i + 1)) ∧
    ((processKeyword scenEnv (fun _ => none) scenItem).1
        (FPath.final "1-1" "kw") = some (Content.jpegQ95 2) ∧
      (processKeyword scenEnv (fun _ => none) scenItem).1
        (FPath.candidate "1-1" "kw" 2) = some (Content.jpegQ95 2) ∧
      (processKeyword scenEnv (fun _ => none) scenItem).1
        (FPath.candidate "1-1" "kw" 1) = none) := by
  constructor
  · intro env item fs urls best i p hfail hd
    have hnd : (List.map Prod.fst urls.enum).Nodup := by
      rw [List.enum_map_fst]
      exact List.nodup_range _
    have hAll : ∀ q ∈ (downloadAll env item fs urls.enum).2.2,
        q.1 ≠ best := by
      intro q hq
      rw [downloadAll_entries] at hq
      obtain ⟨⟨j, u⟩, hju, hfq⟩ := List.mem_filterMap.1 hq
      obtain ⟨img', hcu, rfl⟩ := Option.map_eq_some'.1 hfq
      intro hqb
      dsimp only at hqb
      subst hqb
      rw [hfail u hju] at hcu
      cases hcu
    cases hdl : (downloadAll env item fs urls.enum).2.2 with
    | nil => rw [hdl] at hd; cases hd
    | cons x xs =>
      have hx : x = (i, p) := by rw [hdl] at hd; simpa using hd
      subst hx
      have hmem : (i, p) ∈ (downloadAll env item fs urls.enum).2.2 := by
        rw [hdl]; exact List.mem_cons_self _ _
      obtain ⟨url, img, hm, hco, hcont, hp⟩ :=
        downloadAll_content env item urls.enum fs hnd i p hmem
      have hfind : ((i, p) :: xs).find? (fun q => q.1 = best) = none := by
        rw [List.find?_eq_none]
        intro q hq
        simpa using hAll q (by rw [hdl]; exact hq)
      have hsel : selectBest ((i, p) :: xs) best = some p := by
        simp [selectBest, hfind]
      have hres : processAfterBest env fs item urls best =
          (((downloadAll env item fs urls.enum).1).update
              (FPath.final item.id (slug item.keyword))
              ((downloadAll env item fs urls.enum).1 p),
            (downloadAll env item fs urls.enum).2.1 ++
              [Eff.copy p (FPath.final item.id (slug item.keyword))]) := by
        simp only [processAfterBest, hdl, hsel]
        simp
      refine ⟨url, img, hm, hco, ?_, ?_, hp⟩
      · rw [hres]
        show FS.update _ _ _ _ = _
        rw [FS.update]
        rw [if_pos rfl]
        exact hcont
      · rw [hres]
        show FS.update _ _ _ _ = _
        rw [FS.update]
        rw [if_neg (by rw [hp]; simp)]
        exact hcont
  · decide

/-- C7 witness: the general fallback statement applied to the concrete
two-candidate scenario (chosen rank 0 failed, rank 1 succeeded). -/
theorem c7_fallback_first_available_witness :
    ∃ url img, (1, url) ∈ (["u1", "u2"] : List String).enum ∧
      candOutcome scenEnv url = some img ∧
      (processAfterBest scenEnv (fun _ => none) scenItem ["u1", "u2"] 0).1
        (FPath.final scenItem.id (slug scenItem.keyword)) =
        some (Content.jpegQ95 img) ∧
      (processAfterBest scenEnv (fun _ => none) scenItem ["u1", "u2"] 0).1
        (FPath.candidate "1-1" "kw" 2) = some (Content.jpegQ95 img) ∧
      FPath.candidate "1-1" "kw" 2 =
        FPath.candidate scenItem.id (slug scenItem.keyword) (1 + 1) :=
  c7_fallback_first_available.1 scenEnv scenItem (fun _ => none)
    ["u1", "u2"] 0 1 (FPath.candidate "1-1" "kw" 2)
    (by
      intro url hm
      have henum : (["u1", "u2"] : List String).enum =
          [(0, "u1"), (1, "u2")] := rfl
      rw [henum] at hm
      simp at hm
      subst hm
      decide)
    (by decide)

/-! ## C10 — lexicographic candidate enumeration -/

/-- C10: over a folder holding exactly `candidate_1.jpg` …
`candidate_N.jpg` with `N ≤ 9`, an evaluator response whose leading
token is `k ∈ 1..N` makes `evaluate_best_image` return the path of
`candidate_k.jpg`; with 10 candidates the lexicographic position no
longer coincides with the numeric rank (token 2 picks
`candidate_10.jpg`). -/
theorem c10_lexicographic_rank :
    (∀ (folder : String) (n k : Nat), n ≤ 9 → 1 ≤ k → k ≤ n →
      evaluate_best_image_sep folder (stdListing n) (some (k : Int)) =
        some (folder ++ "/" ++ candName k)) ∧
    (∀ folder : String,
      evaluate_best_image_sep folder (stdListing 10) (some 2) =
        some (folder ++ "/" ++ "candidate_10.jpg")) := by
  constructor
  · intro folder n k hn h1 hk
    have h : bestFile (stdListing n) (some (k : Int)) = some (candName k) := by
      interval_cases n <;> interval_cases k <;> decide
    simp [evaluate_best_image_sep, h]
  · intro folder
    have h : bestFile (stdListing 10) (some 2) =
        some "candidate_10.jpg" := by decide
    simp [evaluate_best_image_sep, h]

/-- C10 witness: three candidates, response "2". -/
theorem c10_lexicographic_rank_witness :
    evaluate_best_image_sep "output_candidates/x" (stdListing 3)
      (some ((2 : Nat) : Int)) =
      some ("output_candidates/x" ++ "/" ++ candName 2) :=
  c10_lexicographic_rank.1 "output_candidates/x" 3 2
    (by decide) (by decide) (by decide)

end SmartImage
